import Mathlib

/-!
Verification of the route53 registry adapter (registrator/route53).

The Go source is shallowly embedded: the remote Route53 store is modelled as
an oracle (a list call returning either an error or the slice of record sets,
and a change call returning an optional error), and every function of the
adapter becomes a pure Lean function over that oracle.  Go panics (index out
of range on an empty non-nil slice, nil-pointer dereference of a record
value) are modelled by an outer Option: a result of none means the Go code
crashes on that input.
-/

namespace Route53

/-- Go errors; the structured content is irrelevant here, only identity. -/
abbrev Err := String

/-! ## Go string primitives (strings.Contains, strings.Split, quoting, Atoi) -/

/-- needle is a leading segment of hay (helper for strContains). -/
def charsHasPre : List Char → List Char → Bool
  | [], _ => true
  | _ :: _, [] => false
  | n :: ns, h :: hs => n == h && charsHasPre ns hs

/-- needle occurs contiguously inside hay (helper for strContains). -/
def charsContains : List Char → List Char → Bool
  | [], needle => needle.isEmpty
  | h :: rest, needle => charsHasPre needle (h :: rest) || charsContains rest needle

/-- Go strings.Contains hay needle. -/
def strContains (hay needle : String) : Bool :=
  charsContains hay.toList needle.toList

/-- Go strings.Split for a single-character separator (the code only splits
on "|" and ":").  Always returns at least one field. -/
def splitOnChar (sep : Char) (s : String) : List String :=
  (s.toList.foldr
    (fun c acc =>
      match acc with
      | [] => [[c]]
      | cur :: done => if c == sep then [] :: cur :: done else (c :: cur) :: done)
    [[]]).map String.mk

/-- Go strings.TrimPrefix. -/
def trimPrefixGo (s pre : String) : String :=
  if pre.toList.isPrefixOf s.toList then String.mk (s.toList.drop pre.toList.length) else s

/-- Go strings.TrimSuffix. -/
def trimSuffixGo (s suf : String) : String :=
  if suf.toList.isSuffixOf s.toList then
    String.mk (s.toList.take (s.toList.length - suf.toList.length))
  else s

/-- Digits of a decimal literal folded into a Nat (helper for atoi). -/
def digitsToNat (l : List Char) : Nat :=
  l.foldl (fun n c => 10 * n + (c.toNat - 48)) 0

/-- Go strconv.Atoi: optional sign followed by at least one decimal digit
(overflow of the 64-bit int is not relevant for ports).  none is the error. -/
def atoi (s : String) : Option Int :=
  match s.toList with
  | [] => none
  | c :: rest =>
    if c == '+' then
      if rest.isEmpty || !(rest.all Char.isDigit) then none
      else some (Int.ofNat (digitsToNat rest))
    else if c == '-' then
      if rest.isEmpty || !(rest.all Char.isDigit) then none
      else some (-(Int.ofNat (digitsToNat rest)))
    else
      if (c :: rest).all Char.isDigit then some (Int.ofNat (digitsToNat (c :: rest)))
      else none

/-- Go strings.ToUpper (ASCII suffices for the actions used). -/
def toUpperGo (s : String) : String :=
  String.mk (s.toList.map Char.toUpper)

/-! ## Data model (aws-sdk route53 types, pointers to strings as Option) -/

/-- r53.RRTypeSrv. -/
def RRTypeSrv : String := "SRV"
/-- r53.RRTypeTxt. -/
def RRTypeTxt : String := "TXT"
/-- r53.RRTypeA. -/
def RRTypeA : String := "A"

/-- Default TTL of every write (const TTL = 30 in route53.go). -/
def TTL : Int := 30

/-- r53.ResourceRecord; Value is a *string, none models a nil pointer. -/
structure ResourceRecord where
  Value : Option String
deriving DecidableEq, Repr

/-- r53.ResourceRecordSet (the fields the adapter reads or writes).
rtype stands for the Go field Type. -/
structure ResourceRecordSet where
  Name : String
  rtype : String
  ResourceRecords : List ResourceRecord
  SetIdentifier : String
  TTLfield : Int
  Weight : Int
deriving DecidableEq, Repr

/-- One entry of the ChangeBatch submitted by UpdateDNSRecordSet. -/
structure Change where
  action : String
  comment : String
  set : ResourceRecordSet
deriving DecidableEq, Repr

/-- The remote store: the ListResourceRecordSets call (zone, name, type,
identifier; error or the possibly-nil slice of record sets) and the
ChangeResourceRecordSets call (zone and change batch; optional error).
none for the slice models a nil Go slice, some [] a non-nil empty one. -/
structure Store where
  list : String → String → String → String → Except Err (Option (List ResourceRecordSet))
  change : String → Change → Option Err

/-- bridge.Service (the fields the adapter reads). -/
structure Service where
  ID : String
  Name : String
  Port : Int
  TTLfield : Int
  Attrs : List (String × String)
deriving DecidableEq, Repr

/-- Go map lookup service.Attrs[key]. -/
def attrsGet (attrs : List (String × String)) (k : String) : Option String :=
  (attrs.find? (fun p => p.1 == k)).map (fun p => p.2)

/-- Go strconv.ParseBool. -/
def parseBool (s : String) : Option Bool :=
  if s == "1" || s == "t" || s == "T" || s == "TRUE" || s == "true" || s == "True" then some true
  else if s == "0" || s == "f" || s == "F" || s == "FALSE" || s == "false" || s == "False" then some false
  else none

/-- The registry instance.  The memoized hostname (getHostname), the fresh
OS hostname (getLocalHostname) and both IPv4 lookups live behind IO in the
source; they are modelled as already-resolved fields. -/
structure Route53Registry where
  zoneID : String
  dnsSuffix : String
  dnsPrefix : String
  hostname : String
  localHostname : String
  localIPv4 : String
  publicIPv4 : String
  recordPerHost : Bool

/-! ## Record set editor (route53.go lines 232-297 and 359-416) -/

/-- The record set built by UpdateDNS for a submitted change: name, type,
identifier and records from the call, TTL fixed to the constant 30, weight 1;
UpdateDNSRecordSet wraps it with the action and batch comment. -/
def mkChange (recordName action recordType identifier : String)
    (resourceRecords : List ResourceRecord) : Change :=
  { action := action
    comment := "Updated recordset for " ++ recordName
    set :=
      { Name := recordName
        rtype := recordType
        ResourceRecords := resourceRecords
        SetIdentifier := identifier
        TTLfield := TTL
        Weight := 1 } }

/-- UpdateDNS followed by UpdateDNSRecordSet: builds the change, submits it,
and reports the submitted change together with the store error. -/
def UpdateDNS (store : Store) (zoneID recordName action recordType identifier : String)
    (resourceRecords : List ResourceRecord) : Change × Option Err :=
  let ch := mkChange recordName action recordType identifier resourceRecords
  (ch, store.change zoneID ch)

/-- ResourceRecords.pos at offset i: index of the first record whose value
contains the input as a substring, -1 when none does; none models the Go
nil-pointer dereference of a nil Value met before a match. -/
def posFrom (value : String) : List ResourceRecord → Nat → Option Int
  | [], _ => some (-1)
  | v :: rest, i =>
    match v.Value with
    | none => none
    | some s => if strContains s value then some (Int.ofNat i) else posFrom value rest (i + 1)

/-- ResourceRecords.pos: find the index of the record that contains the
input string (route53.go lines 274-281). -/
def ResourceRecords.pos (slice : List ResourceRecord) (value : String) : Option Int :=
  posFrom value slice 0

/-- ResourceRecordSet.nameIs (route53.go lines 285-290): true when the slice
is non-nil and its first element has the given name.  slice[0] on a non-nil
empty slice is out of range, modelled by none. -/
def nameIs (slice : Option (List ResourceRecordSet)) (name : String) : Option Bool :=
  match slice with
  | none => some false
  | some [] => none
  | some (s :: _) => some (s.Name == name)

/-- ResourceRecordSet.typeIs (route53.go lines 292-297), same shape. -/
def typeIs (slice : Option (List ResourceRecordSet)) (t : String) : Option Bool :=
  match slice with
  | none => some false
  | some [] => none
  | some (s :: _) => some (s.rtype == t)

/-- Go short-circuit a && b on partially-defined Bools. -/
def andGo (a b : Option Bool) : Option Bool :=
  match a with
  | none => none
  | some false => some false
  | some true => b

/-- slice[0] of a possibly-nil Go slice; none when nil or empty. -/
def sliceGet0 (slice : Option (List ResourceRecordSet)) : Option ResourceRecordSet :=
  match slice with
  | some (s :: _) => some s
  | _ => none

/-- appendToRecordSet (route53.go lines 359-386): result is the list of
changes submitted to the store and the returned Go error; outer none is a
crash of the Go code. -/
def appendToRecordSet (r : Route53Registry) (store : Store)
    (name recordType value identifier : String) : Option (List Change × Option Err) :=
  match store.list r.zoneID name recordType identifier with
  | .error e => some ([], some e)
  | .ok recordSet =>
    match andGo (nameIs recordSet name) (typeIs recordSet recordType) with
    | none => none
    | some true =>
      match sliceGet0 recordSet with
      | none => none
      | some first =>
        let resourceRecords := first.ResourceRecords ++ [⟨some value⟩]
        let res := UpdateDNS store r.zoneID name "UPSERT" recordType identifier resourceRecords
        some ([res.1], res.2)
    | some false =>
      let resourceRecord : List ResourceRecord := [⟨some value⟩]
      let res := UpdateDNS store r.zoneID name "UPSERT" recordType identifier resourceRecord
      some ([res.1], res.2)

/-- removeFromRecordSet (route53.go lines 388-416).  Note: the results of
both UpdateDNS calls are discarded in the source, so after a successful list
call the returned error is always nil. -/
def removeFromRecordSet (r : Route53Registry) (store : Store)
    (name recordType value identifier : String) : Option (List Change × Option Err) :=
  match store.list r.zoneID name recordType identifier with
  | .error e => some ([], some e)
  | .ok recordSet =>
    match andGo (nameIs recordSet name) (typeIs recordSet recordType) with
    | none => none
    | some true =>
      match sliceGet0 recordSet with
      | none => none
      | some first =>
        let resourceRecords := first.ResourceRecords
        match ResourceRecords.pos resourceRecords value with
        | none => none
        | some p =>
          if p ≠ -1 then
            if resourceRecords.length = 1 then
              let res := UpdateDNS store r.zoneID name "DELETE" recordType identifier resourceRecords
              some ([res.1], none)
            else
              let newRecords := resourceRecords.take p.toNat ++ resourceRecords.drop (p.toNat + 1)
              let res := UpdateDNS store r.zoneID name "UPSERT" recordType identifier newRecords
              some ([res.1], none)
          else
            some ([], none)
    | some false => some ([], none)

/-! ## Service registry engine (route53.go lines 100-207, 299-357) -/

/-- One record-set editor operation issued by the engine, in call order. -/
inductive EditOp where
  | upsertValue (name recordType value identifier : String)
  | removeValue (name recordType value identifier : String)
deriving DecidableEq, Repr

/-- getServiceName (route53.go lines 200-203). -/
def getServiceName (r : Route53Registry) (s : Service) : String :=
  "_" ++ s.Name ++ "._" ++ "tcp" ++ "." ++ r.dnsSuffix

/-- getTxtDomain (hostname file, lines 13-15). -/
def getTxtDomain (r : Route53Registry) : String :=
  r.localHostname ++ ".services." ++ r.dnsSuffix

/-- getRecordID (route53.go lines 418-424). -/
def getRecordID (r : Route53Registry) (recordName : String) : String :=
  if r.recordPerHost then r.hostname else recordName

/-- Modelled from the spec: getTxtValue is called at route53.go lines 176 and
195 but its definition is not under src/.  The spec describes it as
encodePointerText(service, hostname): the pipe/colon composite
host:uniqueSuffix:port|fullServiceID|serviceName.  Its content is opaque to
every claim settled here. -/
def getTxtValue (r : Route53Registry) (s : Service) : String :=
  r.hostname ++ ":" ++ s.ID ++ ":" ++ toString s.Port ++ "|" ++ s.ID ++ "|" ++ s.Name

/-- Modelled from the spec: getTxtID is called (with no service argument) at
route53.go lines 106, 176 and 195 but its definition is not under src/; the
spec calls it a record-per-service text identifier.  Its content is opaque to
every claim settled here. -/
def getTxtID (r : Route53Registry) : String :=
  r.hostname

/-- The fmt.Sprintf("1 1 %d %s", port, hostname) payload of service records. -/
def srvRecordValue (port : Int) (hostname : String) : String :=
  "1 1 " ++ toString port ++ " " ++ hostname

/-- updateLocalARecord (route53.go lines 299-327): returns the resolved ip,
the Go error, and the editor operations issued (zero or one). -/
def updateLocalARecord (r : Route53Registry) (store : Store) (service : Service)
    (action : String) : Option (String × Option Err × List EditOp) :=
  let name := service.Name ++ "." ++ r.dnsSuffix
  let result :=
    match attrsGet service.Attrs "localarecord" with
    | some pubRecord =>
      match parseBool pubRecord with
      | some publishRecord => publishRecord
      | none => false
    | none => false
  if result then
    let ip := r.localIPv4
    if toUpperGo action = "UPSERT" then
      (appendToRecordSet r store name RRTypeA ip (getRecordID r name)).map
        (fun res => (ip, res.2, [EditOp.upsertValue name RRTypeA ip (getRecordID r name)]))
    else if toUpperGo action = "DELETE" then
      (removeFromRecordSet r store name RRTypeA ip (getRecordID r name)).map
        (fun res => (ip, res.2, [EditOp.removeValue name RRTypeA ip (getRecordID r name)]))
    else some (ip, none, [])
  else
    some ("", none, [])

/-- updatePublicARecord (route53.go lines 329-357), same shape with the
publicarecord attribute and the public IPv4. -/
def updatePublicARecord (r : Route53Registry) (store : Store) (service : Service)
    (action : String) : Option (String × Option Err × List EditOp) :=
  let name := service.Name ++ "." ++ r.dnsSuffix
  let result :=
    match attrsGet service.Attrs "publicarecord" with
    | some pubRecord =>
      match parseBool pubRecord with
      | some publishRecord => publishRecord
      | none => false
    | none => false
  if result then
    let ip := r.publicIPv4
    if toUpperGo action = "UPSERT" then
      (appendToRecordSet r store name RRTypeA ip (getRecordID r name)).map
        (fun res => (ip, res.2, [EditOp.upsertValue name RRTypeA ip (getRecordID r name)]))
    else if toUpperGo action = "DELETE" then
      (removeFromRecordSet r store name RRTypeA ip (getRecordID r name)).map
        (fun res => (ip, res.2, [EditOp.removeValue name RRTypeA ip (getRecordID r name)]))
    else some (ip, none, [])
  else
    some ("", none, [])

/-- Register (route53.go lines 165-181): local A record, public A record,
TXT append (error discarded), SRV append whose error is returned.  The
result carries the editor operations in call order. -/
def Register (r : Route53Registry) (store : Store) (service : Service) :
    Option (List EditOp × Option Err) :=
  let name := getServiceName r service
  let hostname := r.hostname
  match updateLocalARecord r store service "UPSERT" with
  | none => none
  | some resL =>
    match updatePublicARecord r store service "UPSERT" with
    | none => none
    | some resP =>
      match appendToRecordSet r store (getTxtDomain r) RRTypeTxt (getTxtValue r service) (getTxtID r) with
      | none => none
      | some _resT =>
        match appendToRecordSet r store name RRTypeSrv (srvRecordValue service.Port hostname)
            (getRecordID r name) with
        | none => none
        | some resS =>
          some (resL.2.2 ++ resP.2.2 ++
            [EditOp.upsertValue (getTxtDomain r) RRTypeTxt (getTxtValue r service) (getTxtID r),
             EditOp.upsertValue name RRTypeSrv (srvRecordValue service.Port hostname)
               (getRecordID r name)],
            resS.2)

/-- Deregister (route53.go lines 183-198): local A record, public A record,
then the SRV removal whose error is returned, then the TXT removal whose
error is discarded. -/
def Deregister (r : Route53Registry) (store : Store) (service : Service) :
    Option (List EditOp × Option Err) :=
  let name := getServiceName r service
  let hostname := r.hostname
  match updateLocalARecord r store service "DELETE" with
  | none => none
  | some resL =>
    match updatePublicARecord r store service "DELETE" with
    | none => none
    | some resP =>
      match removeFromRecordSet r store name RRTypeSrv (srvRecordValue service.Port hostname)
          (getRecordID r name) with
      | none => none
      | some resS =>
        match removeFromRecordSet r store (getTxtDomain r) RRTypeTxt (getTxtValue r service)
            (getTxtID r) with
        | none => none
        | some _resT =>
          some (resL.2.2 ++ resP.2.2 ++
            [EditOp.removeValue name RRTypeSrv (srvRecordValue service.Port hostname)
               (getRecordID r name),
             EditOp.removeValue (getTxtDomain r) RRTypeTxt (getTxtValue r service) (getTxtID r)],
            resS.2)

/-! ## Services listing (route53.go lines 100-163) -/

/-- The service built from a kept TXT record value. -/
structure DecodedService where
  ID : String
  Name : String
  Port : Int
  TTLfield : Int
deriving DecidableEq, Repr

/-- Outcome of the per-record body of the Services loop. -/
inductive DecodeResult where
  | crashed
  | skipped
  | kept (s : DecodedService)
deriving DecidableEq, Repr

/-- strings.TrimSuffix(strings.TrimPrefix(v, quote), quote) at line 127. -/
def dequoteValue (raw : String) : String :=
  trimSuffixGo (trimPrefixGo raw "\"") "\""

/-- strings.Split(value, pipe) at line 129. -/
def pipeParts (value : String) : List String :=
  splitOnChar '|' value

/-- serviceIDValue at lines 130-136: the whole dequoted value when fewer
than 4 pipe-fields are present, the first pipe-field otherwise. -/
def serviceIDValueOf (value : String) : String :=
  let parts := pipeParts value
  if parts.length < 4 then value else parts.getD 0 ""

/-- serviceIDparts at line 137: colon-split of serviceIDValue. -/
def serviceIDpartsOf (value : String) : List String :=
  splitOnChar ':' (serviceIDValueOf value)

/-- The body of the inner Services loop (route53.go lines 122-157) for one
record value: nil value or malformed entry is skipped, parts[2] or parts[3]
out of range crashes, a local entry with numeric port is kept.  hostname is
the memoized getHostname value, localHostname the fresh os.Hostname. -/
def decodeRecordValue (hostname localHostname : String) (ttl : Int)
    (record : Option String) : DecodeResult :=
  match record with
  | none => .skipped
  | some raw =>
    let value := dequoteValue raw
    let parts := pipeParts value
    let serviceIDparts := serviceIDpartsOf value
    if serviceIDparts.length ≠ 3 then .skipped
    else if parts.getD 0 "" == hostname || parts.getD 0 "" == localHostname then
      if parts.length ≤ 2 then .crashed
      else
        match atoi (parts.getD 2 "") with
        | none => .skipped
        | some port =>
          if parts.length ≤ 3 then .crashed
          else .kept { ID := value, Name := parts.getD 3 "", Port := port, TTLfield := ttl }
    else .skipped

/-- The inner loop over one record set's records, collecting kept services
in order; none when the loop body crashes. -/
def servicesOfRecords (hostname localHostname : String) (ttl : Int) :
    List ResourceRecord → Option (List DecodedService)
  | [] => some []
  | record :: rest =>
    match decodeRecordValue hostname localHostname ttl record.Value with
    | .crashed => none
    | .skipped => servicesOfRecords hostname localHostname ttl rest
    | .kept s => (servicesOfRecords hostname localHostname ttl rest).map (fun l => s :: l)

/-- The outer loop over the listed record sets: non-TXT sets are skipped,
each TXT set contributes its kept records with the set's TTL. -/
def servicesOfSets (hostname localHostname : String) :
    List ResourceRecordSet → Option (List DecodedService)
  | [] => some []
  | rrs :: rest =>
    if rrs.rtype ≠ RRTypeTxt then servicesOfSets hostname localHostname rest
    else
      match servicesOfRecords hostname localHostname rrs.TTLfield rrs.ResourceRecords with
      | none => none
      | some l => (servicesOfSets hostname localHostname rest).map (fun l2 => l ++ l2)

/-- Services (route53.go lines 100-163) from the list response on: a list
error is returned as the call's error, otherwise the decoded services. -/
def Services (hostname localHostname : String)
    (listRes : Except Err (List ResourceRecordSet)) :
    Except Err (Option (List DecodedService)) :=
  match listRes with
  | .error e => .error e
  | .ok sets => .ok (servicesOfSets hostname localHostname sets)

/-! ## Concrete fixtures used by witnesses and counterexamples -/

/-- A registry instance with every resolver-provided field concrete. -/
def regW : Route53Registry :=
  { zoneID := "Z1", dnsSuffix := "example.com.", dnsPrefix := "",
    hostname := "web-1", localHostname := "web-1",
    localIPv4 := "10.0.0.1", publicIPv4 := "1.2.3.4", recordPerHost := false }

/-- An existing two-value address record set with TTL 60. -/
def setW2 : ResourceRecordSet :=
  { Name := "n.example.com.", rtype := "A",
    ResourceRecords := [⟨some "10.0.0.1"⟩, ⟨some "10.0.0.2"⟩],
    SetIdentifier := "n.example.com.", TTLfield := 60, Weight := 1 }

/-- A store whose list call always finds setW2 and whose changes succeed. -/
def storeW2 : Store :=
  { list := fun _ _ _ _ => .ok (some [setW2]), change := fun _ _ => none }

/-- A store whose list call always returns a nil slice and whose changes
succeed. -/
def storeNilList : Store :=
  { list := fun _ _ _ _ => .ok none, change := fun _ _ => none }

/-- A service with no attributes. -/
def svcW : Service :=
  { ID := "abc123", Name := "web", Port := 8080, TTLfield := 30, Attrs := [] }

/-- A store whose list call finds a non-nil but empty slice. -/
def storeEmptySlice : Store :=
  { list := fun _ _ _ _ => .ok (some []), change := fun _ _ => none }

/-- A store whose list call fails. -/
def storeListFail : Store :=
  { list := fun _ _ _ _ => .error "list-failed", change := fun _ _ => none }

/-- A store whose list call finds setW2 and whose change call fails. -/
def storeChangeFail : Store :=
  { list := fun _ _ _ _ => .ok (some [setW2]), change := fun _ _ => some "boom" }

/-- A store whose list calls return a nil slice and where only changes to
TXT record sets fail. -/
def storeTxtFail : Store :=
  { list := fun _ _ _ _ => .ok none,
    change := fun _ ch => if ch.set.rtype == RRTypeTxt then some "txt-write-failed" else none }

/-! ## Lemmas about ResourceRecords.pos -/

/-- posFrom returns the offset-adjusted index of the first matching record. -/
theorem posFrom_first (value : String) :
    ∀ (l : List ResourceRecord) (k i : Nat) (hi : i < l.length),
      (∃ s, l[i].Value = some s ∧ strContains s value = true) →
      (∀ j (hj : j < i), ∃ s, l[j].Value = some s ∧ strContains s value = false) →
      posFrom value l k = some (Int.ofNat (k + i)) := by
  intro l
  induction l with
  | nil => intro k i hi; exact absurd hi (by simp)
  | cons v rest ih =>
    intro k i hi hmatch hbefore
    cases i with
    | zero =>
      obtain ⟨s, hs, hc⟩ := hmatch
      simp only [List.getElem_cons_zero] at hs
      simp [posFrom, hs, hc]
    | succ i =>
      obtain ⟨s0, hs0, hc0⟩ := hbefore 0 (Nat.succ_pos i)
      simp only [List.getElem_cons_zero] at hs0
      have hi2 : i < rest.length := by simpa using hi
      have hrest := ih (k + 1) i hi2 (by simpa using hmatch)
        (fun j hj => by simpa using hbefore (j + 1) (Nat.succ_lt_succ hj))
      have hk : (k + 1) + i = k + (i + 1) := by omega
      rw [hk] at hrest
      simp [posFrom, hs0, hc0, hrest]

/-- When all values are non-nil and some value matches, pos yields a
non-negative in-range index. -/
theorem posFrom_exists (value : String) :
    ∀ (l : List ResourceRecord) (k : Nat),
      (∀ rr ∈ l, rr.Value ≠ none) →
      (∃ rr ∈ l, ∃ s, rr.Value = some s ∧ strContains s value = true) →
      ∃ p : Nat, posFrom value l k = some (Int.ofNat (k + p)) ∧ p < l.length := by
  intro l
  induction l with
  | nil => intro k _ hex; simp at hex
  | cons v rest ih =>
    intro k hnn hex
    have hv : v.Value ≠ none := hnn v (List.mem_cons_self v rest)
    cases hval : v.Value with
    | none => exact absurd hval hv
    | some s =>
      by_cases hc : strContains s value = true
      · exact ⟨0, by simp [posFrom, hval, hc], by simp⟩
      · obtain ⟨rr, hmem, s2, hs2, hc2⟩ := hex
        rcases List.mem_cons.mp hmem with heq | hmem2
        · subst heq
          rw [hval] at hs2
          cases hs2
          exact absurd hc2 hc
        · obtain ⟨p, hp, hplen⟩ := ih (k + 1)
            (fun rr2 h2 => hnn rr2 (List.mem_cons_of_mem v h2)) ⟨rr, hmem2, s2, hs2, hc2⟩
          refine ⟨p + 1, ?_, by simpa using Nat.succ_lt_succ hplen⟩
          have hk : (k + 1) + p = k + (p + 1) := by omega
          rw [hk] at hp
          simp [posFrom, hval, hc, hp]

/-! ## Claim theorems -/

/-- C8: ResourceRecords.pos selects the first value, in the set's existing
order, whose text contains the search value as a substring (containment, not
equality); when several would match, the earliest-positioned one is
returned. -/
theorem pos_first_substring_match (l : List ResourceRecord) (value : String) (i : Nat)
    (hi : i < l.length)
    (hmatch : ∃ s, l[i].Value = some s ∧ strContains s value = true)
    (hbefore : ∀ j (hj : j < i), ∃ s, l[j].Value = some s ∧ strContains s value = false) :
    ResourceRecords.pos l value = some (Int.ofNat i) := by
  have h := posFrom_first value l 0 i hi hmatch hbefore
  simpa [ResourceRecords.pos] using h

/-- Witness for C8: in a set whose second and third values both contain
"abc" (the second only as a strict substring), position 1 is returned. -/
theorem pos_first_substring_match_witness :
    strContains "xabcx" "abc" = true ∧ strContains "abc9" "abc" = true ∧
    ResourceRecords.pos
      [⟨some "zzz"⟩, ⟨some "xabcx"⟩, ⟨some "abc9"⟩] "abc" = some (Int.ofNat 1) := by
  refine ⟨by decide, by decide, ?_⟩
  exact pos_first_substring_match [⟨some "zzz"⟩, ⟨some "xabcx"⟩, ⟨some "abc9"⟩] "abc" 1
    (by decide) ⟨"xabcx", rfl, by decide⟩
    (fun j hj => by
      have hj0 : j = 0 := by omega
      subst hj0
      exact ⟨"zzz", rfl, by decide⟩)

/-- C1: when the listed set matches the key's name and type and some stored
value contains the removed value, removeFromRecordSet submits a DELETE of the
whole set if that value is the only one, and otherwise an UPSERT of the set
with exactly the matched value excluded, order preserved; no submitted set
has an empty value list. -/
theorem removeFromRecordSet_found_spec (r : Route53Registry) (store : Store)
    (name recordType value identifier : String)
    (first : ResourceRecordSet) (others : List ResourceRecordSet)
    (hlist : store.list r.zoneID name recordType identifier = .ok (some (first :: others)))
    (hn : first.Name = name) (ht : first.rtype = recordType)
    (hnn : ∀ rr ∈ first.ResourceRecords, rr.Value ≠ none)
    (hex : ∃ rr ∈ first.ResourceRecords, ∃ s, rr.Value = some s ∧ strContains s value = true) :
    ∃ (p : Nat) (chs : List Change),
      ResourceRecords.pos first.ResourceRecords value = some (Int.ofNat p) ∧
      p < first.ResourceRecords.length ∧
      removeFromRecordSet r store name recordType value identifier = some (chs, none) ∧
      chs = (if first.ResourceRecords.length = 1 then
               [mkChange name "DELETE" recordType identifier first.ResourceRecords]
             else
               [mkChange name "UPSERT" recordType identifier
                 (first.ResourceRecords.take p ++ first.ResourceRecords.drop (p + 1))]) ∧
      ∀ ch ∈ chs, ch.set.ResourceRecords ≠ [] := by
  subst hn ht
  obtain ⟨p, hpos0, hplen⟩ := posFrom_exists value first.ResourceRecords 0 hnn hex
  rw [Nat.zero_add] at hpos0
  have hpos : ResourceRecords.pos first.ResourceRecords value = some (Int.ofNat p) := hpos0
  have hne : (Int.ofNat p) ≠ -1 := by simp
  refine ⟨p, _, hpos, hplen, ?_, rfl, ?_⟩
  · simp only [removeFromRecordSet, hlist, nameIs, typeIs, andGo, sliceGet0,
      beq_self_eq_true, hpos]
    rw [if_pos hne]
    by_cases hlen : first.ResourceRecords.length = 1
    · rw [if_pos hlen, if_pos hlen]
      rfl
    · rw [if_neg hlen, if_neg hlen]
      simp [UpdateDNS, Int.toNat_ofNat]
  · intro ch hch
    by_cases hlen : first.ResourceRecords.length = 1
    · rw [if_pos hlen] at hch
      simp only [List.mem_singleton] at hch
      subst hch
      simp only [mkChange]
      intro hnil
      rw [hnil] at hlen
      simp at hlen
    · rw [if_neg hlen] at hch
      simp only [List.mem_singleton] at hch
      subst hch
      simp only [mkChange]
      intro hnil
      have hlength := congrArg List.length hnil
      simp only [List.length_append, List.length_take, List.length_drop,
        List.length_nil] at hlength
      omega

/-- Witness for C1: removing "10.0.0.2" from a two-value set submits an
UPSERT carrying only the other value. -/
theorem removeFromRecordSet_found_spec_witness :
    (∀ rr ∈ setW2.ResourceRecords, rr.Value ≠ none) ∧
    (∃ (p : Nat) (chs : List Change),
      ResourceRecords.pos setW2.ResourceRecords "10.0.0.2" = some (Int.ofNat p) ∧
      p < setW2.ResourceRecords.length ∧
      removeFromRecordSet regW storeW2 "n.example.com." "A" "10.0.0.2"
        "n.example.com." = some (chs, none) ∧
      chs = (if setW2.ResourceRecords.length = 1 then
               [mkChange "n.example.com." "DELETE" "A" "n.example.com."
                 setW2.ResourceRecords]
             else
               [mkChange "n.example.com." "UPSERT" "A" "n.example.com."
                 (setW2.ResourceRecords.take p ++
                   setW2.ResourceRecords.drop (p + 1))]) ∧
      ∀ ch ∈ chs, ch.set.ResourceRecords ≠ []) := by
  refine ⟨by decide, ?_⟩
  exact removeFromRecordSet_found_spec regW storeW2 "n.example.com." "A"
    "10.0.0.2" "n.example.com." setW2 [] rfl rfl rfl (by decide)
    ⟨⟨some "10.0.0.2"⟩, by decide, "10.0.0.2", rfl, by decide⟩

/-- C9: removeFromRecordSet performs no change-batch write and returns no
error when no listed record set matches the key's name and type, or when no
stored value contains the value to remove. -/
theorem removeFromRecordSet_noop_spec (r : Route53Registry) (store : Store)
    (name recordType value identifier : String) :
    (∀ rs, store.list r.zoneID name recordType identifier = .ok rs →
      andGo (nameIs rs name) (typeIs rs recordType) = some false →
      removeFromRecordSet r store name recordType value identifier = some ([], none))
    ∧ (∀ first others,
        store.list r.zoneID name recordType identifier = .ok (some (first :: others)) →
        first.Name = name → first.rtype = recordType →
        ResourceRecords.pos first.ResourceRecords value = some (-1) →
        removeFromRecordSet r store name recordType value identifier = some ([], none)) := by
  constructor
  · intro rs hlist hand
    simp [removeFromRecordSet, hlist, hand]
  · intro first others hlist hn ht hpos
    subst hn ht
    simp [removeFromRecordSet, hlist, nameIs, typeIs, andGo, sliceGet0, hpos]

/-- Witness for C9: a nil list result, and a two-value set holding no value
containing "10.9.9.9", are both no-ops without error. -/
theorem removeFromRecordSet_noop_spec_witness :
    removeFromRecordSet regW storeNilList "n.example.com." "A" "10.0.0.9" "n.example.com." =
      some ([], none) ∧
    removeFromRecordSet regW storeW2 "n.example.com." "A" "10.9.9.9" "n.example.com." =
      some ([], none) :=
  ⟨(removeFromRecordSet_noop_spec regW storeNilList "n.example.com." "A" "10.0.0.9"
      "n.example.com.").1 none rfl rfl,
   (removeFromRecordSet_noop_spec regW storeW2 "n.example.com." "A" "10.9.9.9"
      "n.example.com.").2 setW2 [] rfl rfl rfl (by decide)⟩

/-- C10: nameIs and typeIs dereference the first element of a non-nil slice
without an emptiness check, so on a successful list result that is a non-nil
empty slice both editor operations crash (are not total); on every other
successful or failed list result appendToRecordSet is defined. -/
theorem nameIs_typeIs_empty_not_total (r : Route53Registry) (store : Store)
    (name recordType value identifier : String) :
    (nameIs (some []) name = none ∧ typeIs (some []) recordType = none)
    ∧ (store.list r.zoneID name recordType identifier = .ok (some []) →
        appendToRecordSet r store name recordType value identifier = none ∧
        removeFromRecordSet r store name recordType value identifier = none)
    ∧ (∀ rs, store.list r.zoneID name recordType identifier = .ok rs → rs ≠ some [] →
        appendToRecordSet r store name recordType value identifier ≠ none) := by
  refine ⟨⟨rfl, rfl⟩, ?_, ?_⟩
  · intro hlist
    constructor
    · simp [appendToRecordSet, hlist, nameIs, andGo]
    · simp [removeFromRecordSet, hlist, nameIs, andGo]
  · intro rs hlist hne
    cases rs with
    | none => simp [appendToRecordSet, hlist, nameIs, andGo, UpdateDNS]
    | some l =>
      cases l with
      | nil => exact absurd rfl hne
      | cons x xs =>
        cases hb : x.Name == name <;> cases hb2 : x.rtype == recordType <;>
          simp [appendToRecordSet, hlist, nameIs, typeIs, andGo, sliceGet0, hb, hb2, UpdateDNS]

/-- Witness for C10: on a store listing a non-nil empty slice the append
operation crashes, on a nil slice it is defined. -/
theorem nameIs_typeIs_empty_not_total_witness :
    nameIs (some []) "n.example.com." = none ∧
    appendToRecordSet regW storeEmptySlice "n.example.com." "A" "v" "n.example.com." = none ∧
    appendToRecordSet regW storeNilList "n.example.com." "A" "v" "n.example.com." ≠ none :=
  ⟨(nameIs_typeIs_empty_not_total regW storeEmptySlice "n.example.com." "A" "v"
      "n.example.com.").1.1,
   ((nameIs_typeIs_empty_not_total regW storeEmptySlice "n.example.com." "A" "v"
      "n.example.com.").2.1 rfl).1,
   (nameIs_typeIs_empty_not_total regW storeNilList "n.example.com." "A" "v"
      "n.example.com.").2.2 none rfl (by decide)⟩

/-- Counterexample to C2 as stated: the existing set has TTL 60, but the
UPSERT submitted by appendToRecordSet carries the fixed TTL 30, not the
existing set's TTL. -/
theorem appendToRecordSet_ttl_counterexample :
    appendToRecordSet regW storeW2 "n.example.com." "A" "10.0.0.3" "n.example.com." =
      some ([mkChange "n.example.com." "UPSERT" "A" "n.example.com."
        [⟨some "10.0.0.1"⟩, ⟨some "10.0.0.2"⟩, ⟨some "10.0.0.3"⟩]], none) ∧
    (mkChange "n.example.com." "UPSERT" "A" "n.example.com."
      [⟨some "10.0.0.1"⟩, ⟨some "10.0.0.2"⟩, ⟨some "10.0.0.3"⟩]).set.TTLfield = 30 ∧
    setW2.TTLfield = 60 := by
  exact ⟨by decide, rfl, rfl⟩

/-- C2 (amended): appendToRecordSet reads the record set at the key; if the
listed set matches the key's name and type it appends the value at the end of
the set's values and submits the full set as an UPSERT, and otherwise submits
a new single-value set as an UPSERT; in both cases the write carries the
fixed default TTL 30 (not the existing set's TTL) and its store error is
returned. -/
theorem appendToRecordSet_upsert_spec (r : Route53Registry) (store : Store)
    (name recordType value identifier : String) :
    (∀ first others,
      store.list r.zoneID name recordType identifier = .ok (some (first :: others)) →
      first.Name = name → first.rtype = recordType →
      appendToRecordSet r store name recordType value identifier =
        some ([mkChange name "UPSERT" recordType identifier
            (first.ResourceRecords ++ [⟨some value⟩])],
          store.change r.zoneID (mkChange name "UPSERT" recordType identifier
            (first.ResourceRecords ++ [⟨some value⟩]))))
    ∧ (∀ rs, store.list r.zoneID name recordType identifier = .ok rs →
        andGo (nameIs rs name) (typeIs rs recordType) = some false →
        appendToRecordSet r store name recordType value identifier =
          some ([mkChange name "UPSERT" recordType identifier [⟨some value⟩]],
            store.change r.zoneID (mkChange name "UPSERT" recordType identifier
              [⟨some value⟩])))
    ∧ (∀ a b c d recs, (mkChange a b c d recs).set.TTLfield = TTL) := by
  refine ⟨?_, ?_, fun a b c d recs => rfl⟩
  · intro first others hlist hn ht
    subst hn ht
    simp [appendToRecordSet, hlist, nameIs, typeIs, andGo, sliceGet0, UpdateDNS]
  · intro rs hlist hand
    simp [appendToRecordSet, hlist, hand, UpdateDNS]

/-- Witness for C2: appending to the existing two-value set, and creating a
fresh single-value set on a nil list result. -/
theorem appendToRecordSet_upsert_spec_witness :
    setW2.Name = "n.example.com." ∧
    appendToRecordSet regW storeW2 "n.example.com." "A" "10.0.0.3" "n.example.com." =
      some ([mkChange "n.example.com." "UPSERT" "A" "n.example.com."
        [⟨some "10.0.0.1"⟩, ⟨some "10.0.0.2"⟩, ⟨some "10.0.0.3"⟩]], none) ∧
    appendToRecordSet regW storeNilList "a.example.com." "A" "10.0.0.3" "a.example.com." =
      some ([mkChange "a.example.com." "UPSERT" "A" "a.example.com." [⟨some "10.0.0.3"⟩]], none) :=
  ⟨rfl,
   (appendToRecordSet_upsert_spec regW storeW2 "n.example.com." "A" "10.0.0.3"
      "n.example.com.").1 setW2 [] rfl rfl rfl,
   (appendToRecordSet_upsert_spec regW storeNilList "a.example.com." "A" "10.0.0.3"
      "a.example.com.").2.1 none rfl rfl⟩

/-- Counterexample to C7 as stated: the change-batch call submitted by
removeFromRecordSet fails with "boom", yet the operation returns no error:
change-batch failures during removeValue are not propagated. -/
theorem removeValue_change_error_swallowed :
    removeFromRecordSet regW storeChangeFail "n.example.com." "A" "10.0.0.2" "n.example.com." =
      some ([mkChange "n.example.com." "UPSERT" "A" "n.example.com." [⟨some "10.0.0.1"⟩]], none) ∧
    storeChangeFail.change regW.zoneID
      (mkChange "n.example.com." "UPSERT" "A" "n.example.com." [⟨some "10.0.0.1"⟩]) =
      some "boom" := by
  exact ⟨by decide, rfl⟩

/-- C7 (amended): list failures are propagated by both editor operations and
change-batch failures are propagated by appendToRecordSet (whose returned
error is exactly the store's answer to its single submitted change), but
removeFromRecordSet discards its change-batch error and returns nil after any
successful list; neither operation ever submits more than one change (no
internal retries). -/
theorem remote_error_propagation_spec (r : Route53Registry) (store : Store)
    (name recordType value identifier : String) :
    (∀ e, store.list r.zoneID name recordType identifier = .error e →
      appendToRecordSet r store name recordType value identifier = some ([], some e) ∧
      removeFromRecordSet r store name recordType value identifier = some ([], some e))
    ∧ (∀ rs chs err, store.list r.zoneID name recordType identifier = .ok rs →
        appendToRecordSet r store name recordType value identifier = some (chs, err) →
        ∃ ch, chs = [ch] ∧ err = store.change r.zoneID ch)
    ∧ (∀ rs chs err, store.list r.zoneID name recordType identifier = .ok rs →
        removeFromRecordSet r store name recordType value identifier = some (chs, err) →
        err = none ∧ chs.length ≤ 1) := by
  refine ⟨?_, ?_, ?_⟩
  · intro e hlist
    exact ⟨by simp [appendToRecordSet, hlist], by simp [removeFromRecordSet, hlist]⟩
  · intro rs chs err hlist happ
    simp only [appendToRecordSet, hlist, UpdateDNS] at happ
    cases hand : andGo (nameIs rs name) (typeIs rs recordType) with
    | none => simp [hand] at happ
    | some b =>
      cases b with
      | true =>
        simp only [hand] at happ
        cases hs0 : sliceGet0 rs with
        | none => simp [hs0] at happ
        | some first =>
          simp only [hs0] at happ
          rw [Option.some.injEq, Prod.mk.injEq] at happ
          exact ⟨_, happ.1.symm, happ.2.symm⟩
      | false =>
        simp only [hand] at happ
        rw [Option.some.injEq, Prod.mk.injEq] at happ
        exact ⟨_, happ.1.symm, happ.2.symm⟩
  · intro rs chs err hlist hrem
    simp only [removeFromRecordSet, hlist, UpdateDNS] at hrem
    cases hand : andGo (nameIs rs name) (typeIs rs recordType) with
    | none => simp [hand] at hrem
    | some b =>
      cases b with
      | true =>
        simp only [hand] at hrem
        cases hs0 : sliceGet0 rs with
        | none => simp [hs0] at hrem
        | some first =>
          simp only [hs0] at hrem
          cases hpos : ResourceRecords.pos first.ResourceRecords value with
          | none => simp [hpos] at hrem
          | some p =>
            simp only [hpos] at hrem
            by_cases hp : p ≠ -1
            · rw [if_pos hp] at hrem
              by_cases hlen : first.ResourceRecords.length = 1
              · rw [if_pos hlen] at hrem
                rw [Option.some.injEq, Prod.mk.injEq] at hrem
                exact ⟨hrem.2.symm, by rw [← hrem.1]; simp⟩
              · rw [if_neg hlen] at hrem
                rw [Option.some.injEq, Prod.mk.injEq] at hrem
                exact ⟨hrem.2.symm, by rw [← hrem.1]; simp⟩
            · rw [if_neg hp] at hrem
              rw [Option.some.injEq, Prod.mk.injEq] at hrem
              exact ⟨hrem.2.symm, by rw [← hrem.1]; simp⟩
      | false =>
        simp only [hand] at hrem
        rw [Option.some.injEq, Prod.mk.injEq] at hrem
        exact ⟨hrem.2.symm, by rw [← hrem.1]; simp⟩

/-- Witness for C7: a failed list call surfaces its error through
appendToRecordSet, and a successful list followed by a failed change leaves
removeFromRecordSet returning no error. -/
theorem remote_error_propagation_spec_witness :
    appendToRecordSet regW storeListFail "n.example.com." "A" "v" "n.example.com." =
      some ([], some "list-failed") ∧
    ((none : Option Err) = none ∧
      [mkChange "n.example.com." "UPSERT" "A" "n.example.com." [⟨some "10.0.0.1"⟩]].length ≤ 1) :=
  ⟨((remote_error_propagation_spec regW storeListFail "n.example.com." "A" "v"
      "n.example.com.").1 "list-failed" rfl).1,
   (remote_error_propagation_spec regW storeChangeFail "n.example.com." "A" "10.0.0.2"
      "n.example.com.").2.2 (some [setW2])
      [mkChange "n.example.com." "UPSERT" "A" "n.example.com." [⟨some "10.0.0.1"⟩]] none
      rfl (by decide)⟩

/-- C6: Register returns exactly the error of the SRV append; whatever the
store answers for the A-record and TXT writes, the result is the SRV
append's error. -/
theorem register_returns_srv_error (r : Route53Registry) (store : Store) (s : Service)
    (ops : List EditOp) (err : Option Err)
    (h : Register r store s = some (ops, err)) :
    ∃ chs, appendToRecordSet r store (getServiceName r s) RRTypeSrv
      (srvRecordValue s.Port r.hostname) (getRecordID r (getServiceName r s)) =
        some (chs, err) := by
  simp only [Register] at h
  cases hL : updateLocalARecord r store s "UPSERT" with
  | none => simp [hL] at h
  | some resL =>
    simp only [hL] at h
    cases hP : updatePublicARecord r store s "UPSERT" with
    | none => simp [hP] at h
    | some resP =>
      simp only [hP] at h
      cases hT : appendToRecordSet r store (getTxtDomain r) RRTypeTxt (getTxtValue r s)
          (getTxtID r) with
      | none => simp [hT] at h
      | some resT =>
        simp only [hT] at h
        cases hS : appendToRecordSet r store (getServiceName r s) RRTypeSrv
            (srvRecordValue s.Port r.hostname) (getRecordID r (getServiceName r s)) with
        | none => simp [hS] at h
        | some resS =>
          obtain ⟨chsS, errS⟩ := resS
          simp only [hS] at h
          rw [Option.some.injEq, Prod.mk.injEq] at h
          obtain ⟨h1, h2⟩ := h
          subst h2
          exact ⟨chsS, rfl⟩

/-- Witness for C6: with a store failing exactly the TXT writes, Register
still returns no error, the SRV append's result. -/
theorem register_returns_srv_error_witness :
    Register regW storeTxtFail svcW =
      some ([EditOp.upsertValue "web-1.services.example.com." "TXT"
               "web-1:abc123:8080|abc123|web" "web-1",
             EditOp.upsertValue "_web._tcp.example.com." "SRV" "1 1 8080 web-1"
               "_web._tcp.example.com."], none) ∧
    (∃ chs, appendToRecordSet regW storeTxtFail (getServiceName regW svcW) RRTypeSrv
      (srvRecordValue svcW.Port regW.hostname) (getRecordID regW (getServiceName regW svcW)) =
        some (chs, none)) :=
  ⟨by decide,
   register_returns_srv_error regW storeTxtFail svcW
     [EditOp.upsertValue "web-1.services.example.com." "TXT"
        "web-1:abc123:8080|abc123|web" "web-1",
      EditOp.upsertValue "_web._tcp.example.com." "SRV" "1 1 8080 web-1"
        "_web._tcp.example.com."] none (by decide)⟩

/-- Every editor operation issued by updateLocalARecord with action DELETE is
a removeValue on an address record. -/
theorem updateLocalARecord_delete_ops (r : Route53Registry) (store : Store) (s : Service)
    (ip : String) (e : Option Err) (ops : List EditOp)
    (h : updateLocalARecord r store s "DELETE" = some (ip, e, ops)) :
    ∀ op ∈ ops, ∃ n v i, op = EditOp.removeValue n RRTypeA v i := by
  simp only [updateLocalARecord] at h
  split at h
  · rw [if_neg (by decide), if_pos (by decide)] at h
    cases hrm : removeFromRecordSet r store (s.Name ++ "." ++ r.dnsSuffix) RRTypeA
        r.localIPv4 (getRecordID r (s.Name ++ "." ++ r.dnsSuffix)) with
    | none => rw [hrm] at h; simp at h
    | some res =>
      rw [hrm] at h
      simp only [Option.map_some'] at h
      rw [Option.some.injEq, Prod.mk.injEq, Prod.mk.injEq] at h
      intro op hop
      rw [← h.2.2] at hop
      simp only [List.mem_singleton] at hop
      exact ⟨_, _, _, hop⟩
  · rw [Option.some.injEq, Prod.mk.injEq, Prod.mk.injEq] at h
    intro op hop
    rw [← h.2.2] at hop
    simp at hop

/-- Every editor operation issued by updatePublicARecord with action DELETE
is a removeValue on an address record. -/
theorem updatePublicARecord_delete_ops (r : Route53Registry) (store : Store) (s : Service)
    (ip : String) (e : Option Err) (ops : List EditOp)
    (h : updatePublicARecord r store s "DELETE" = some (ip, e, ops)) :
    ∀ op ∈ ops, ∃ n v i, op = EditOp.removeValue n RRTypeA v i := by
  simp only [updatePublicARecord] at h
  split at h
  · rw [if_neg (by decide), if_pos (by decide)] at h
    cases hrm : removeFromRecordSet r store (s.Name ++ "." ++ r.dnsSuffix) RRTypeA
        r.publicIPv4 (getRecordID r (s.Name ++ "." ++ r.dnsSuffix)) with
    | none => rw [hrm] at h; simp at h
    | some res =>
      rw [hrm] at h
      simp only [Option.map_some'] at h
      rw [Option.some.injEq, Prod.mk.injEq, Prod.mk.injEq] at h
      intro op hop
      rw [← h.2.2] at hop
      simp only [List.mem_singleton] at hop
      exact ⟨_, _, _, hop⟩
  · rw [Option.some.injEq, Prod.mk.injEq, Prod.mk.injEq] at h
    intro op hop
    rw [← h.2.2] at hop
    simp at hop

/-- Counterexample to C3 as stated: on a service with no address-record
flags, Deregister issues the service (SRV) removal BEFORE the pointer/text
removal, while Register issues the pointer/text write before the service
write; the two op orders are not the same. -/
theorem deregister_order_counterexample :
    Deregister regW storeNilList svcW =
      some ([EditOp.removeValue "_web._tcp.example.com." "SRV" "1 1 8080 web-1"
               "_web._tcp.example.com.",
             EditOp.removeValue "web-1.services.example.com." "TXT"
               "web-1:abc123:8080|abc123|web" "web-1"], none) ∧
    Register regW storeNilList svcW =
      some ([EditOp.upsertValue "web-1.services.example.com." "TXT"
               "web-1:abc123:8080|abc123|web" "web-1",
             EditOp.upsertValue "_web._tcp.example.com." "SRV" "1 1 8080 web-1"
               "_web._tcp.example.com."], none) ∧
    ([EditOp.removeValue "_web._tcp.example.com." "SRV" "1 1 8080 web-1"
        "_web._tcp.example.com.",
      EditOp.removeValue "web-1.services.example.com." "TXT"
        "web-1:abc123:8080|abc123|web" "web-1"] ≠
     [EditOp.removeValue "web-1.services.example.com." "TXT"
        "web-1:abc123:8080|abc123|web" "web-1",
      EditOp.removeValue "_web._tcp.example.com." "SRV" "1 1 8080 web-1"
        "_web._tcp.example.com."]) := by
  exact ⟨by decide, by decide, by decide⟩

/-- C3 (amended): Deregister mirrors Register with removeValue in place of
upsertValue and returns the error of the service-record removal, but its
order is address records first, then the service (SRV) record, then the
pointer/text record. -/
theorem deregister_spec (r : Route53Registry) (store : Store) (s : Service)
    (ops : List EditOp) (err : Option Err)
    (h : Deregister r store s = some (ops, err)) :
    ∃ (opsA : List EditOp) (chs : List Change),
      ops = opsA ++
        [EditOp.removeValue (getServiceName r s) RRTypeSrv (srvRecordValue s.Port r.hostname)
           (getRecordID r (getServiceName r s)),
         EditOp.removeValue (getTxtDomain r) RRTypeTxt (getTxtValue r s) (getTxtID r)] ∧
      (∀ op ∈ opsA, ∃ n v i, op = EditOp.removeValue n RRTypeA v i) ∧
      removeFromRecordSet r store (getServiceName r s) RRTypeSrv (srvRecordValue s.Port r.hostname)
        (getRecordID r (getServiceName r s)) = some (chs, err) := by
  simp only [Deregister] at h
  cases hL : updateLocalARecord r store s "DELETE" with
  | none => simp [hL] at h
  | some resL =>
    simp only [hL] at h
    cases hP : updatePublicARecord r store s "DELETE" with
    | none => simp [hP] at h
    | some resP =>
      simp only [hP] at h
      cases hS : removeFromRecordSet r store (getServiceName r s) RRTypeSrv
          (srvRecordValue s.Port r.hostname) (getRecordID r (getServiceName r s)) with
      | none => simp [hS] at h
      | some resS =>
        obtain ⟨chsS, errS⟩ := resS
        simp only [hS] at h
        cases hT : removeFromRecordSet r store (getTxtDomain r) RRTypeTxt (getTxtValue r s)
            (getTxtID r) with
        | none => simp [hT] at h
        | some resT =>
          simp only [hT] at h
          rw [Option.some.injEq, Prod.mk.injEq] at h
          obtain ⟨h1, h2⟩ := h
          subst h2
          refine ⟨resL.2.2 ++ resP.2.2, chsS, ?_, ?_, ?_⟩
          · rw [← h1, List.append_assoc]
          · intro op hop
            rcases List.mem_append.mp hop with hmem | hmem
            · exact updateLocalARecord_delete_ops r store s _ _ _ hL op hmem
            · exact updatePublicARecord_delete_ops r store s _ _ _ hP op hmem
          · rfl

/-- Witness for C3 (amended): concrete Deregister run decomposed as address
ops (none here), the SRV removal, then the TXT removal, with the SRV
removal's error returned. -/
theorem deregister_spec_witness :
    ∃ (opsA : List EditOp) (chs : List Change),
      [EditOp.removeValue "_web._tcp.example.com." "SRV" "1 1 8080 web-1"
         "_web._tcp.example.com.",
       EditOp.removeValue "web-1.services.example.com." "TXT"
         "web-1:abc123:8080|abc123|web" "web-1"] =
        opsA ++
        [EditOp.removeValue (getServiceName regW svcW) RRTypeSrv
           (srvRecordValue svcW.Port regW.hostname) (getRecordID regW (getServiceName regW svcW)),
         EditOp.removeValue (getTxtDomain regW) RRTypeTxt (getTxtValue regW svcW)
           (getTxtID regW)] ∧
      (∀ op ∈ opsA, ∃ n v i, op = EditOp.removeValue n RRTypeA v i) ∧
      removeFromRecordSet regW storeNilList (getServiceName regW svcW) RRTypeSrv
        (srvRecordValue svcW.Port regW.hostname) (getRecordID regW (getServiceName regW svcW)) =
        some (chs, none) :=
  deregister_spec regW storeNilList svcW _ none (by decide)

/-- Counterexample to C4 as stated: on the input
"web-1:abc123:8080|abc123:abc-8080|web" the decoding step of Services does
NOT yield identity web-1:abc123:8080 with name web and port 8080; having
fewer than 4 pipe-fields, the whole string becomes the identity key, its
colon-split has 4 fields, and the record is skipped. -/
theorem decodePointerText_example_counterexample :
    decodeRecordValue "web-1" "web-1" 30
      (some "\"web-1:abc123:8080|abc123:abc-8080|web\"") = DecodeResult.skipped ∧
    DecodeResult.skipped ≠
      DecodeResult.kept
        { ID := "web-1:abc123:8080", Name := "web", Port := 8080, TTLfield := 30 } := by
  exact ⟨by decide, by decide⟩

/-- C4 (amended): on "web-1:abc123:8080|abc123:abc-8080|web" (3 pipe-fields,
fewer than the 4 the decoder requires) the fallback treats the entire
dequoted string as the identity key; its colon-split yields 4 fields, so the
record is skipped as malformed.  On a pipe-free input the fallback likewise
takes the whole string, and for "web-1:abc123:8080" the colon-split yields
exactly the 3 fields headed by the host-label "web-1". -/
theorem decodePointerText_fallback_spec :
    serviceIDValueOf "web-1:abc123:8080|abc123:abc-8080|web" =
      "web-1:abc123:8080|abc123:abc-8080|web" ∧
    serviceIDpartsOf "web-1:abc123:8080|abc123:abc-8080|web" =
      ["web-1", "abc123", "8080|abc123", "abc-8080|web"] ∧
    decodeRecordValue "web-1" "web-1" 30
      (some "\"web-1:abc123:8080|abc123:abc-8080|web\"") = DecodeResult.skipped ∧
    serviceIDValueOf "web-1:abc123:8080" = "web-1:abc123:8080" ∧
    serviceIDpartsOf "web-1:abc123:8080" = ["web-1", "abc123", "8080"] ∧
    (serviceIDpartsOf "web-1:abc123:8080").getD 0 "" = "web-1" := by
  exact ⟨by decide, by decide, by decide, by decide, by decide, by decide⟩

/-- C5: the code at the failing input.  For the well-shaped 4-pipe-field
record "web-1:abc123:8080|abc123|8080|web" on host web-1 the decoded
host-label (first colon-field of the identity key) equals the hostname, yet
the record is dropped and Services returns the empty list without error: the
filter compares the whole first pipe-field parts[0], never the host-label,
against the two hostnames. -/
theorem services_hostcheck_failing_input :
    (serviceIDpartsOf "web-1:abc123:8080|abc123|8080|web").getD 0 "" = "web-1" ∧
    decodeRecordValue "web-1" "web-1" 30
      (some "\"web-1:abc123:8080|abc123|8080|web\"") = DecodeResult.skipped ∧
    Services "web-1" "web-1"
      (.ok [{ Name := "web-1.services.example.com.", rtype := "TXT",
              ResourceRecords := [⟨some "\"web-1:abc123:8080|abc123|8080|web\""⟩],
              SetIdentifier := "web-1", TTLfield := 30, Weight := 1 }]) =
      .ok (some []) ∧
    decodeRecordValue "web-1:abc123:8080" "web-1" 30
      (some "\"web-1:abc123:8080|abc123|8080|web\"") =
      DecodeResult.kept
        { ID := "web-1:abc123:8080|abc123|8080|web", Name := "web",
          Port := 8080, TTLfield := 30 } := by
  exact ⟨by decide, by decide, by rfl, by decide⟩

end Route53
